import Mathlib

/-!
# Verification of the `frugal-ui/base` reactivity core

Shallow embedding of the reactivity core of the repository: reactive cells
(`State`), the equality-short-circuiting `State` variant, `BindableDummy`,
`unwrapValue` / `unwrapBindable`, `ProxyState`, `ComputedState` construction,
the per-consumer binding registry (`createBinding` / `updateBinding` /
`removeBinding`), `SelectionModel`, and the exclusive selection-binding model
(`ValueSBModel.setData`).

Conventions of the embedding:
* JavaScript `Map` objects are modelled as association lists in insertion
  order (`mapSet` updates in place when the key exists, else appends, exactly
  like `Map.prototype.set`); `Set` objects are insertion-ordered duplicate-free
  lists (`setAdd`).
* Subscriber callbacks are opaque: each is an identifier (`Nat`), and invoking
  a callback with value `v` is recorded as the event `(id, v)` in a trace that
  the operation returns alongside the updated state.  Closures whose bodies
  are themselves source code of the repository (the proxy's upstream-refresh
  action, the computed cell's recompute trampoline) are translated into the
  step functions.
* Object identities (`new UUID()`, array allocation) are modelled by a
  threaded `Nat` counter.
-/

namespace FrugalUI

/-- `Map.prototype.get`: first entry with the key, if any. -/
def mapGet {K V : Type} [DecidableEq K] (m : List (K × V)) (k : K) : Option V :=
  (m.find? (fun p => p.1 = k)).map Prod.snd

/-- `Map.prototype.set`: update in place when the key exists (keeping its
insertion position), otherwise append a fresh entry. -/
def mapSet {K V : Type} [DecidableEq K] (m : List (K × V)) (k : K) (v : V) :
    List (K × V) :=
  match m with
  | [] => [(k, v)]
  | p :: rest => if p.1 = k then (k, v) :: rest else p :: mapSet rest k v

/-- `Map.prototype.delete`: remove the entry with the key, if any. -/
def mapDelete {K V : Type} [DecidableEq K] (m : List (K × V)) (k : K) :
    List (K × V) :=
  m.filter (fun p => ¬ p.1 = k)

/-- `Set.prototype.add`: append unless already present. -/
def setAdd {α : Type} [DecidableEq α] (s : List α) (x : α) : List α :=
  if x ∈ s then s else s ++ [x]

/-- `Set.prototype.delete`: remove the element if present. -/
def setDelete {α : Type} [DecidableEq α] (s : List α) (x : α) : List α :=
  s.filter (fun y => ¬ y = x)

/-- A `Binding` of `index.ts`: a `uuid` identity plus an `action` callback,
the callback being modelled by its identifier. -/
structure Binding where
  uuid : Nat
  actionId : Nat
  deriving DecidableEq, Repr

/-- An invocation event: callback `id` was called with value `v`. -/
abbrev Event (T : Type) := Nat × T

/-- `State<T>` of `index.ts` (extends `BindableObject<T>`): a stored value and
a `Map` from binding uuid to binding action. -/
structure StateA (T : Type) where
  _value : T
  bindings : List (Nat × Nat)
  deriving DecidableEq, Repr

namespace StateA

/-- `State.triggerBinding`: `binding.action(this.value)`. -/
def triggerBinding {T : Type} (s : StateA T) (b : Binding) : List (Event T) :=
  [(b.actionId, s._value)]

/-- `State.triggerAll`: `this.bindings.forEach((action) => action(this.value))`,
in `Map` insertion order. -/
def triggerAll {T : Type} (s : StateA T) : List (Event T) :=
  s.bindings.map (fun p => (p.2, s._value))

/-- `State.addBinding`: `this.bindings.set(binding.uuid, binding.action)`. -/
def addBinding {T : Type} (s : StateA T) (b : Binding) : StateA T :=
  { s with bindings := mapSet s.bindings b.uuid b.actionId }

/-- `State.removeBinding`: `this.bindings.delete(binding.uuid)`. -/
def removeBinding {T : Type} (s : StateA T) (b : Binding) : StateA T :=
  { s with bindings := mapDelete s.bindings b.uuid }

/-- The `BindableObject` value setter inherited by `State` (`index.ts` lines
296–303): `this._value = newValue; this.triggerAll();` — no equality check. -/
def setValue {T : Type} (s : StateA T) (v : T) : StateA T × List (Event T) :=
  let s' : StateA T := { s with _value := v }
  (s', s'.triggerAll)

end StateA

/-- `State<T>` of `part_007`: a stored value and a `Set` of subscription
functions (modelled by their identifiers, in insertion order). -/
structure StateB (T : Type) where
  _value : T
  _bindings : List Nat
  deriving DecidableEq, Repr

namespace StateB

/-- `State.callSubscriptions`: `this._bindings.forEach((fn) => fn(this._value))`. -/
def callSubscriptions {T : Type} (s : StateB T) : List (Event T) :=
  s._bindings.map (fun f => (f, s._value))

/-- `State.subscribe`: `this._bindings.add(fn)`. -/
def subscribe {T : Type} (s : StateB T) (f : Nat) : StateB T :=
  { s with _bindings := setAdd s._bindings f }

/-- `State.unsubscribe`: `this._bindings.delete(fn)`. -/
def unsubscribe {T : Type} (s : StateB T) (f : Nat) : StateB T :=
  { s with _bindings := setDelete s._bindings f }

/-- The `part_007` value setter (lines 221–225):
`if (this._value == newValue) return; this._value = newValue;
this.callSubscriptions();`. -/
def setValue {T : Type} [DecidableEq T] (s : StateB T) (v : T) :
    StateB T × List (Event T) :=
  if s._value = v then (s, [])
  else
    let s' : StateB T := { s with _value := v }
    (s', s'.callSubscriptions)

end StateB

/-! ## The `BindableObject` hierarchy and the unwrap helpers (`index.ts`) -/

/-- The concrete variants of `BindableObject<T>` in `index.ts` that the unwrap
helpers can produce or consume: the plain base class (all reactivity methods
are no-ops), the single-slot `BindableDummy`, and the full `State`. -/
inductive BObj (T : Type) where
  | base (v : T)
  | dummy (v : T) (action : Option Nat)
  | state (s : StateA T)
  deriving DecidableEq, Repr

namespace BObj

/-- `get value() { return this._value; }`. -/
def value {T : Type} : BObj T → T
  | .base v => v
  | .dummy v _ => v
  | .state s => s._value

/-- `addBinding`: a no-op on the base class, `this.action = binding.action`
on `BindableDummy` (a single slot, so it overwrites), `Map.set` on `State`. -/
def addBinding {T : Type} : BObj T → Binding → BObj T
  | .base v, _ => .base v
  | .dummy v _, b => .dummy v (some b.actionId)
  | .state s, b => .state (s.addBinding b)

/-- `removeBinding`: `BindableDummy` does not override it, so both the base
class and the dummy use the inherited no-op; `State` deletes from its map. -/
def removeBinding {T : Type} : BObj T → Binding → BObj T
  | .base v, _ => .base v
  | .dummy v a, _ => .dummy v a
  | .state s, b => .state (s.removeBinding b)

/-- `triggerAll`: no-op on the base class; on `BindableDummy`,
`if (this.action) this.action(this._value)`; on `State`, the full fan-out. -/
def triggerAll {T : Type} : BObj T → List (Event T)
  | .base _ => []
  | .dummy v a => match a with | some i => [(i, v)] | none => []
  | .state s => s.triggerAll

/-- The inherited `BindableObject` value setter:
`this._value = newValue; this.triggerAll();`. -/
def setValue {T : Type} : BObj T → T → BObj T × List (Event T)
  | .base _, v => (.base v, [])
  | .dummy _ a, v => (.dummy v a, (BObj.dummy v a).triggerAll)
  | .state s, v =>
    let r := s.setValue v
    (.state r.1, r.2)

end BObj

/-- `ValueObject<T> = T | BindableObject<T>`, the union made explicit. -/
inductive ValueObject (T : Type) where
  | literal (t : T)
  | bindable (b : BObj T)
  deriving DecidableEq, Repr

/-- `unwrapValue`: `if (valueObject instanceof BindableObject) return
valueObject.value; else return valueObject;`. -/
def unwrapValue {T : Type} : ValueObject T → T
  | .bindable b => b.value
  | .literal t => t

/-- `unwrapBindable`: `if (valueObject instanceof BindableObject) return
valueObject; else return new BindableDummy(unwrapValue(valueObject));` —
the dummy's constructor stores the value and leaves `action` undefined. -/
def unwrapBindable {T : Type} : ValueObject T → BObj T
  | .bindable b => b
  | .literal t => .dummy (unwrapValue (.literal t)) none

/-! ## `ProxyState` (`index.ts` lines 404–437) -/

/-- One entry of the original (upstream) cell's binding map: either a passive
external subscriber, or the refresh binding that the `ProxyState` constructor
registered on the original (`action: () => { this._value =
convertFromOriginal(this.original.value); this.triggerAll(); }`). -/
inductive OrigAction where
  | passive (id : Nat)
  | proxyRefresh
  deriving DecidableEq, Repr

/-- Events observable while a proxy write propagates. -/
inductive PEvent (T O : Type) where
  | backward (x : T) (y : O)
  | assignUpstream (y : O)
  | origSub (id : Nat) (y : O)
  | forward (y : O) (x : T)
  | proxySub (id : Nat) (x : T)
  deriving DecidableEq, Repr

/-- A `ProxyState<T, O>` after construction, together with its upstream cell:
the upstream's stored value and binding map (which contains the proxy's
refresh binding), the proxy's stored value, and the proxy's own subscriber
actions (its `State` binding map, in insertion order). -/
structure ProxySys (T O : Type) where
  originalValue : O
  origBindings : List OrigAction
  proxyValue : T
  proxySubs : List Nat
  deriving DecidableEq, Repr

namespace ProxySys

/-- Run one action of the original cell's fan-out.  A passive subscriber is
invoked with the original's current value.  The proxy's refresh binding runs
`this._value = convertFromOriginal(this.original.value); this.triggerAll();`
— the forward conversion, an assignment to the proxy's value field, and the
fan-out to the proxy's own subscribers; it never touches the backward
conversion. -/
def runOrigAction {T O : Type} (cf : O → T) (sys : ProxySys T O) :
    OrigAction → ProxySys T O × List (PEvent T O)
  | .passive i => (sys, [.origSub i sys.originalValue])
  | .proxyRefresh =>
    let t := cf sys.originalValue
    let sys' := { sys with proxyValue := t }
    (sys', .forward sys.originalValue t ::
      sys'.proxySubs.map (fun i => .proxySub i t))

/-- The original cell's `triggerAll`: run every binding in insertion order. -/
def origTriggerAll {T O : Type} (cf : O → T) (sys : ProxySys T O) :
    List OrigAction → ProxySys T O × List (PEvent T O)
  | [] => (sys, [])
  | a :: rest =>
    let r := runOrigAction cf sys a
    let r' := origTriggerAll cf r.1 rest
    (r'.1, r.2 ++ r'.2)

/-- The original cell's value setter (`BindableObject`, always notifies):
`this._value = newValue; this.triggerAll();`. -/
def origSetValue {T O : Type} (cf : O → T) (sys : ProxySys T O) (y : O) :
    ProxySys T O × List (PEvent T O) :=
  let sys' := { sys with originalValue := y }
  let r := origTriggerAll cf sys' sys'.origBindings
  (r.1, .assignUpstream y :: r.2)

/-- The public `ProxyState` value setter:
`set value(newValue) { this._value = newValue;
this.original.value = this.convertToOriginal(this.value); }`. -/
def proxyWrite {T O : Type} (cf : O → T) (ct : T → O) (sys : ProxySys T O)
    (x : T) : ProxySys T O × List (PEvent T O) :=
  let sys1 := { sys with proxyValue := x }
  let y := ct sys1.proxyValue
  let r := origSetValue cf sys1 y
  (r.1, .backward x y :: r.2)

/-- A sequence of explicit proxy writes, traces concatenated. -/
def proxyWrites {T O : Type} (cf : O → T) (ct : T → O) (sys : ProxySys T O) :
    List T → ProxySys T O × List (PEvent T O)
  | [] => (sys, [])
  | x :: xs =>
    let r := proxyWrite cf ct sys x
    let r' := proxyWrites cf ct r.1 xs
    (r'.1, r.2 ++ r'.2)

end ProxySys

/-- Recognizes a backward-conversion call event. -/
def PEvent.isBackward {T O : Type} : PEvent T O → Bool
  | .backward _ _ => true
  | _ => false

/-- Recognizes an assignment to the upstream cell's value. -/
def PEvent.isAssignUpstream {T O : Type} : PEvent T O → Bool
  | .assignUpstream _ => true
  | _ => false

/-! ## `ComputedState` construction (`index.ts` lines 364–378) -/

/-- The loop of the `ComputedState` constructor over `statesToBind`:
`configuration.statesToBind.forEach((bindable) => { bindable.addBinding(binding);
bindable.triggerBinding(binding); });` where `binding.action` is
`() => configuration.compute(this)`.  Each `triggerBinding` on an upstream
`State` invokes the action once (`binding.action(this.value)`), i.e. one call
of `compute`; the returned trace records these invocations. -/
def computedConstruct {U : Type} (binding : Binding) :
    List (StateA U) → List (StateA U) × List (Event U)
  | [] => ([], [])
  | s :: rest =>
    let s' := s.addBinding binding
    let evs := s'.triggerBinding binding
    let r := computedConstruct binding rest
    (s' :: r.1, evs ++ r.2)

/-! ## The per-consumer binding registry (`index.ts` lines 971–1035) -/

/-- A bindable cell together with its identity (`bindable.uuid`). -/
structure Cell (T : Type) where
  uuid : Nat
  st : StateA T
  deriving DecidableEq, Repr

/-- A consumer (a DOM-bound component): `component.bindings = new Map()`,
keyed by the bound cell's uuid string. -/
structure Component (T : Type) where
  bindings : List (Nat × Binding)
  deriving DecidableEq, Repr

/-- `component.createBinding = (bindable, action) => { const binding =
{ uuid: new UUID(), action }; bindable.addBinding(binding);
component.bindings.set(bindable.uuid.toString(), binding); return component; }`.
`fresh` is the next unused uuid (the process-unique identity supply); the
call returns the updated consumer, the updated cell, and the new supply. -/
def createBinding {T : Type} (fresh : Nat) (comp : Component T) (cell : Cell T)
    (actionId : Nat) : Component T × Cell T × Nat :=
  let binding : Binding := { uuid := fresh, actionId := actionId }
  let cell' : Cell T := { cell with st := cell.st.addBinding binding }
  let comp' : Component T := { bindings := mapSet comp.bindings cell.uuid binding }
  (comp', cell', fresh + 1)

/-- Result of `updateBinding` / `removeBinding`: the consumer that the call
returns, the cell, the callback invocations performed, and the number of
non-fatal diagnostics written (`console.error`). -/
structure RegistryResult (T : Type) where
  comp : Component T
  cell : Cell T
  events : List (Event T)
  diagnostics : Nat
  deriving DecidableEq, Repr

/-- `component.updateBinding = (bindable) => { const binding =
component.bindings.get(bindable.uuid.toString()); if (!binding) {
console.error(...); return component; } bindable.triggerBinding(binding);
return component; }`. -/
def updateBinding {T : Type} (comp : Component T) (cell : Cell T) :
    RegistryResult T :=
  match mapGet comp.bindings cell.uuid with
  | none => ⟨comp, cell, [], 1⟩
  | some binding => ⟨comp, cell, cell.st.triggerBinding binding, 0⟩

/-- `component.removeBinding = (bindable) => { const binding =
component.bindings.get(bindable.uuid.toString()); if (!binding) {
console.error(...); return component; } bindable.removeBinding(binding);
component.bindings.delete(bindable.uuid.toString()); return component; }`. -/
def removeBinding {T : Type} (comp : Component T) (cell : Cell T) :
    RegistryResult T :=
  match mapGet comp.bindings cell.uuid with
  | none => ⟨comp, cell, [], 1⟩
  | some binding =>
    ⟨{ bindings := mapDelete comp.bindings cell.uuid },
     { cell with st := cell.st.removeBinding binding }, [], 0⟩

/-! ## `SelectionModel` (`part_007` lines 334–384)

`SelectionModel<T> extends State<T[]>` of `part_007`.  The published value is
a JavaScript array, compared by the setter's `==` with *reference* equality;
array identity is modelled by pairing the contents with an allocation id drawn
from the threaded counter `alloc` (each `getItems()` call allocates a fresh
array via `[...this._selection.values()]`). -/

structure SelectionModel (α : Type) where
  _value : Nat × List α
  _bindings : List Nat
  _selection : List α
  alloc : Nat
  deriving DecidableEq, Repr

namespace SelectionModel

/-- `new SelectionModel()`: `super([])` stores a freshly allocated empty
array; the internal selection `Set` starts empty. -/
def new (α : Type) : SelectionModel α :=
  { _value := (0, []), _bindings := [], _selection := [], alloc := 1 }

/-- `subscribe` inherited from the `part_007` `State`. -/
def subscribe {α : Type} (s : SelectionModel α) (f : Nat) : SelectionModel α :=
  { s with _bindings := setAdd s._bindings f }

/-- `getItems(): T[] { return [...this._selection.values()]; }` — the contents
an external caller observes (allocation bookkeeping is irrelevant to it). -/
def getItems {α : Type} (s : SelectionModel α) : List α :=
  s._selection

/-- `checkIsSelected(item) { return this._selection.has(item); }` — a pure
query, touching neither the state nor the subscribers. -/
def checkIsSelected {α : Type} [DecidableEq α] (s : SelectionModel α) (x : α) :
    Bool :=
  s._selection.contains x

/-- `private update() { this.value = this.getItems(); }` going through the
inherited short-circuiting setter: `getItems()` allocates a fresh array, and
`if (this._value == newValue) return` compares it to the stored array by
reference, i.e. by allocation id. -/
def update {α : Type} (s : SelectionModel α) :
    SelectionModel α × List (Nat × List α) :=
  let arr : Nat × List α := (s.alloc, s._selection)
  let s' := { s with alloc := s.alloc + 1 }
  if s'._value.1 = arr.1 then (s', [])
  else
    let s'' := { s' with _value := arr }
    (s'', s''._bindings.map (fun f => (f, arr.2)))

/-- `select(...items) { items.forEach((item) => this._selection.add(item));
this.update(); }`. -/
def select {α : Type} [DecidableEq α] (s : SelectionModel α) (items : List α) :
    SelectionModel α × List (Nat × List α) :=
  update { s with _selection := items.foldl setAdd s._selection }

/-- `deselect(...items) { items.forEach((item) =>
this._selection.delete(item)); this.update(); }`. -/
def deselect {α : Type} [DecidableEq α] (s : SelectionModel α)
    (items : List α) : SelectionModel α × List (Nat × List α) :=
  update { s with _selection := items.foldl setDelete s._selection }

/-- `clear() { this._selection.clear(); this.update(); }`. -/
def clear {α : Type} (s : SelectionModel α) :
    SelectionModel α × List (Nat × List α) :=
  update { s with _selection := [] }

end SelectionModel

/-! ## The exclusive selection-binding model (`index.ts` lines 229–252)

`ValueSBModel.setData(isSelected)` over a `DataSelection` whose
`selectedItems` is an `index.ts` `State<T[]>`.  The shared array is the
state's stored value; its subscribers are passive observers. -/

/-- The shared selection cell of a selection-binding group: the contents of
`selection.selectedItems.value` and the cell's subscriber actions. -/
structure SBSelection (α : Type) where
  selectedItems : List α
  subs : List Nat
  deriving DecidableEq, Repr

/-- `getOwnIndex = () => this.selection.selectedItems.value.indexOf(this.ownValue)`,
with JavaScript's `-1`-for-absent encoded as `Option`. -/
def getOwnIndex {α : Type} [DecidableEq α] (ownValue : α) (s : SBSelection α) :
    Option Nat :=
  s.selectedItems.indexOf? ownValue

/-- `ValueSBModel.setData` (`index.ts` lines 239–252).  In words: when
selecting and already present, return; when selecting in exclusive mode,
assign `[ownValue]` through the cell's setter (which fans out) and return;
when selecting otherwise, push in place; when deselecting and absent, return;
when deselecting, splice in place; the in-place branches end with the manual
`triggerAll()`. -/
def setData {α : Type} [DecidableEq α] (isExclusive : Bool) (ownValue : α)
    (s : SBSelection α) (isSelected : Bool) :
    SBSelection α × List (Nat × List α) :=
  if isSelected then
    match getOwnIndex ownValue s with
    | some _ => (s, [])
    | none =>
      if isExclusive then
        let s' := { s with selectedItems := [ownValue] }
        (s', s'.subs.map (fun f => (f, s'.selectedItems)))
      else
        let s' := { s with selectedItems := s.selectedItems ++ [ownValue] }
        (s', s'.subs.map (fun f => (f, s'.selectedItems)))
  else
    match getOwnIndex ownValue s with
    | none => (s, [])
    | some i =>
      let s' := { s with selectedItems := s.selectedItems.eraseIdx i }
      (s', s'.subs.map (fun f => (f, s'.selectedItems)))

/-! ## Helper lemmas -/

theorem mapGet_mapSet_self {K V : Type} [DecidableEq K] (m : List (K × V))
    (k : K) (v : V) : mapGet (mapSet m k v) k = some v := by
  induction m with
  | nil => simp [mapGet, mapSet, List.find?]
  | cons p rest ih =>
    by_cases h : p.1 = k
    · simp [mapSet, h, mapGet, List.find?]
    · simpa [mapSet, h, mapGet, List.find?] using ih

theorem mapGet_mapSet_ne {K V : Type} [DecidableEq K] (m : List (K × V))
    (k k' : K) (v : V) (h : k' ≠ k) :
    mapGet (mapSet m k v) k' = mapGet m k' := by
  induction m with
  | nil => simp [mapGet, mapSet, List.find?, Ne.symm h]
  | cons p rest ih =>
    by_cases hp : p.1 = k
    · have hp' : ¬ p.1 = k' := by rw [hp]; exact Ne.symm h
      simp only [mapSet, if_pos hp, mapGet]
      rw [List.find?_cons_of_neg _ (by simpa using Ne.symm h),
        List.find?_cons_of_neg _ (by simpa using hp')]
    · by_cases hq : p.1 = k'
      · simp only [mapSet, if_neg hp, mapGet]
        rw [List.find?_cons_of_pos _ (by simpa using hq),
          List.find?_cons_of_pos _ (by simpa using hq)]
      · simp only [mapSet, if_neg hp, mapGet]
        rw [List.find?_cons_of_neg _ (by simpa using hq),
          List.find?_cons_of_neg _ (by simpa using hq)]
        exact ih

theorem countP_mapSet_key {K V : Type} [DecidableEq K] (m : List (K × V))
    (k : K) (v : V) :
    (mapSet m k v).countP (fun p => p.1 = k) =
      max (m.countP (fun p => p.1 = k)) 1 := by
  induction m with
  | nil => simp [mapSet, List.countP_cons]
  | cons p rest ih =>
    by_cases h : p.1 = k
    · simp only [mapSet, if_pos h]
      rw [List.countP_cons, List.countP_cons]
      simp only [h, decide_True, if_true]
      omega
    · simp only [mapSet, if_neg h, List.countP_cons, decide_eq_false h]
      simp only [Bool.false_eq_true, if_false, Nat.add_zero, ih]

/-! ## C5: registry operations on an unbound cell are diagnosed no-ops -/

/-- C5.  For every consumer and every cell with no entry in the consumer's
binding registry, `updateBinding` and `removeBinding` each report exactly one
non-fatal diagnostic, mutate neither the consumer's registry nor the cell's
subscriber collection, invoke no callback, and return the consumer object
unchanged so fluent chaining keeps working. -/
theorem c5_unbound_cell_noop {T : Type} (comp : Component T) (cell : Cell T)
    (h : mapGet comp.bindings cell.uuid = none) :
    updateBinding comp cell = ⟨comp, cell, [], 1⟩ ∧
    removeBinding comp cell = ⟨comp, cell, [], 1⟩ := by
  constructor
  · simp [updateBinding, h]
  · simp [removeBinding, h]

/-- Witness for C5 at a concrete consumer that never bound the cell. -/
theorem c5_unbound_cell_noop_witness :
    updateBinding (⟨[(3, ⟨5, 6⟩)]⟩ : Component Nat) ⟨0, ⟨42, [(1, 2)]⟩⟩ =
      ⟨⟨[(3, ⟨5, 6⟩)]⟩, ⟨0, ⟨42, [(1, 2)]⟩⟩, [], 1⟩ ∧
    removeBinding (⟨[(3, ⟨5, 6⟩)]⟩ : Component Nat) ⟨0, ⟨42, [(1, 2)]⟩⟩ =
      ⟨⟨[(3, ⟨5, 6⟩)]⟩, ⟨0, ⟨42, [(1, 2)]⟩⟩, [], 1⟩ :=
  c5_unbound_cell_noop ⟨[(3, ⟨5, 6⟩)]⟩ ⟨0, ⟨42, [(1, 2)]⟩⟩ (by decide)

/-! ## C8: the unwrap helpers -/

/-- C8.  `unwrapValue` reads `.value` from a cell and returns a literal
unchanged; `unwrapBindable` returns a cell unchanged and wraps a literal in a
fresh `BindableDummy` holding that literal; the synthesized dummy supports
exactly one subscriber (a second `addBinding` overwrites the first, so a
trigger invokes only the most recently added action); and
`unwrapValue (unwrapBindable x) = unwrapValue x` for every input. -/
theorem c8_unwrap_helpers {T : Type} (t : T) (b : BObj T) (b1 b2 : Binding)
    (x : ValueObject T) :
    unwrapValue (.bindable b) = b.value ∧
    unwrapValue (.literal t) = t ∧
    unwrapBindable (.bindable b) = b ∧
    unwrapBindable (.literal t) = .dummy t none ∧
    (unwrapBindable (.literal t)).value = t ∧
    (((unwrapBindable (.literal t)).addBinding b1).addBinding b2).triggerAll =
      [(b2.actionId, t)] ∧
    unwrapValue (.bindable (unwrapBindable x)) = unwrapValue x := by
  refine ⟨rfl, rfl, rfl, rfl, rfl, rfl, ?_⟩
  cases x <;> rfl

/-! ## C10: bindings on a synthesized cell cannot be detached -/

/-- C10.  On a cell synthesized by `unwrapBindable` (a `BindableDummy`),
`removeBinding` is the no-op inherited from `BindableObject`: after
`addBinding(b)` then `removeBinding(b)` the action is still attached, and a
subsequent assignment to the cell's value still invokes `b`'s action; indeed
`removeBinding` leaves every dummy unchanged. -/
theorem c10_dummy_removeBinding_noop {T : Type} (t x : T) (b : Binding)
    (v : T) (a : Option Nat) (b' : Binding) :
    ((unwrapBindable (ValueObject.literal t)).addBinding b).removeBinding b =
      (unwrapBindable (ValueObject.literal t)).addBinding b ∧
    ((((unwrapBindable (ValueObject.literal t)).addBinding b).removeBinding
        b).setValue x).2 = [(b.actionId, x)] ∧
    (BObj.dummy v a).removeBinding b' = .dummy v a := by
  exact ⟨rfl, rfl, rfl⟩

/-! ## C9: the two value setters are not equivalent on equal writes -/

/-- C9.  The `part_007` setter exits immediately (returning the state
unchanged and invoking no subscriber) when the written value equals the
current one, while the `index.ts` setter always overwrites and notifies every
subscriber; on a state holding `5` with one subscriber, writing `5` produces
no invocation under the former and one invocation under the latter, so the
two setters are not equivalent on equal writes. -/
theorem c9_setter_variants_differ {T : Type} [DecidableEq T] :
    (∀ (s : StateB T) (v : T), s._value = v → s.setValue v = (s, [])) ∧
    (∀ (s : StateA T) (v : T),
      (s.setValue v).1._value = v ∧
      (s.setValue v).2 = s.bindings.map (fun p => (p.2, v))) ∧
    ((StateB.mk 5 [3] : StateB Nat).setValue 5).2 ≠
      ((StateA.mk 5 [(0, 3)] : StateA Nat).setValue 5).2 := by
  refine ⟨?_, ?_, by decide⟩
  · intro s v h
    simp [StateB.setValue, h]
  · intro s v
    exact ⟨rfl, rfl⟩

/-- Witness for C9: the equality-short-circuit hypothesis discharged on a
concrete state. -/
theorem c9_setter_variants_differ_witness :
    (StateB.mk 5 [3] : StateB Nat).setValue 5 = (StateB.mk 5 [3], []) :=
  (c9_setter_variants_differ (T := Nat)).1 (StateB.mk 5 [3]) 5 rfl

/-! ## C3: subscriber ordering across two assignments -/

/-- Counterexample to C3 as stated.  On the `part_007` `State` (one of the
claim's two cited variants) holding `0` with subscriber `7` registered before
both assignments, writing the distinct values `v1 = 0` and then `v2 = 1`
invokes the subscriber only with `1`: the first assignment short-circuits
because the written value equals the current one, so the subscriber is never
invoked with `v1`. -/
theorem c3_order_counterexample :
    ((StateB.mk 0 [7] : StateB Nat).setValue 0).2 ++
      (((StateB.mk 0 [7] : StateB Nat).setValue 0).1.setValue 1).2 = [(7, 1)] ∧
    ((StateB.mk 0 [7] : StateB Nat).setValue 0).2 ++
      (((StateB.mk 0 [7] : StateB Nat).setValue 0).1.setValue 1).2 ≠
      [(7, 0), (7, 1)] := by
  decide

/-- C3, amended.  For the `index.ts` `State` the property holds as stated:
each assignment synchronously invokes every currently-registered subscriber
with the written value in registration order, so a subscriber registered
before both assignments observes `v1` then `v2`.  For the `part_007` `State`
the same holds provided `v1` also differs from the cell's value before the
first assignment, since that setter short-circuits on equality. -/
theorem c3_two_assignments_order {T : Type} [DecidableEq T] :
    (∀ (s : StateA T) (v1 v2 : T),
      (s.setValue v1).2 = s.bindings.map (fun p => (p.2, v1)) ∧
      ((s.setValue v1).1.setValue v2).2 = s.bindings.map (fun p => (p.2, v2))) ∧
    (∀ (s : StateB T) (v1 v2 : T), s._value ≠ v1 → v1 ≠ v2 →
      (s.setValue v1).2 = s._bindings.map (fun f => (f, v1)) ∧
      ((s.setValue v1).1.setValue v2).2 = s._bindings.map (fun f => (f, v2))) := by
  constructor
  · intro s v1 v2
    exact ⟨rfl, rfl⟩
  · intro s v1 v2 h1 h2
    constructor
    · simp [StateB.setValue, StateB.callSubscriptions, h1]
    · simp [StateB.setValue, StateB.callSubscriptions, h1, h2]

/-- Witness for C3 (amended): both hypotheses of the `part_007` part
discharged on a concrete state. -/
theorem c3_two_assignments_order_witness :
    ((StateB.mk 0 [7] : StateB Nat).setValue 1).2 = [7].map (fun f => (f, 1)) ∧
    (((StateB.mk 0 [7] : StateB Nat).setValue 1).1.setValue 2).2 =
      [7].map (fun f => (f, 2)) :=
  (c3_two_assignments_order (T := Nat)).2 (StateB.mk 0 [7]) 1 2 (by decide)
    (by decide)

/-! ## C4: the binding registry overwrites on duplicate `createBinding` -/

/-- C4.  Calling `createBinding` twice for the same consumer/cell pair leaves
exactly one entry for that cell in the consumer's registry — the second
binding — and a subsequent `updateBinding` invokes only the second callback
(with the cell's current value and no diagnostic); yet the first binding
remains registered on the cell's own subscriber map alongside the second. -/
theorem c4_create_binding_overwrites {T : Type} (comp : Component T)
    (cell : Cell T) (a1 a2 fresh : Nat)
    (hcount : comp.bindings.countP (fun p => p.1 = cell.uuid) ≤ 1) :
    let r1 := createBinding fresh comp cell a1
    let r2 := createBinding r1.2.2 r1.1 r1.2.1 a2
    r2.1.bindings.countP (fun p => p.1 = cell.uuid) = 1 ∧
    mapGet r2.1.bindings cell.uuid = some ⟨fresh + 1, a2⟩ ∧
    updateBinding r2.1 r2.2.1 = ⟨r2.1, r2.2.1, [(a2, cell.st._value)], 0⟩ ∧
    mapGet r2.2.1.st.bindings fresh = some a1 ∧
    mapGet r2.2.1.st.bindings (fresh + 1) = some a2 := by
  simp only [createBinding]
  refine ⟨?_, ?_, ?_, ?_, ?_⟩
  · rw [countP_mapSet_key, countP_mapSet_key]
    omega
  · exact mapGet_mapSet_self _ _ _
  · simp only [updateBinding, mapGet_mapSet_self]
    rfl
  · rw [StateA.addBinding, StateA.addBinding]
    simp only
    rw [mapGet_mapSet_ne _ _ _ _ (by omega), mapGet_mapSet_self]
  · rw [StateA.addBinding, StateA.addBinding]
    simp only
    exact mapGet_mapSet_self _ _ _

/-- Witness for C4 at a concrete consumer and cell. -/
theorem c4_create_binding_overwrites_witness :
    let comp : Component Nat := ⟨[]⟩
    let cell : Cell Nat := ⟨0, ⟨42, []⟩⟩
    let r1 := createBinding 5 comp cell 10
    let r2 := createBinding r1.2.2 r1.1 r1.2.1 20
    r2.1.bindings.countP (fun p => p.1 = cell.uuid) = 1 ∧
    mapGet r2.1.bindings cell.uuid = some ⟨5 + 1, 20⟩ ∧
    updateBinding r2.1 r2.2.1 = ⟨r2.1, r2.2.1, [(20, cell.st._value)], 0⟩ ∧
    mapGet r2.2.1.st.bindings 5 = some 10 ∧
    mapGet r2.2.1.st.bindings (5 + 1) = some 20 :=
  c4_create_binding_overwrites ⟨[]⟩ ⟨0, ⟨42, []⟩⟩ 10 20 5 (by decide)

/-! ## C7: exclusive selection-binding replaces the shared array -/

/-- C7.  In an exclusive selection-binding group whose shared selection array
is exactly `[A]` (item `A` currently selected), invoking `setData(true)` on
item `B`'s model replaces the shared array with exactly `[B]` and fans out
once to the shared cell's subscribers — single-select radio-group
semantics. -/
theorem c7_exclusive_select_replaces {α : Type} [DecidableEq α] (A B : α)
    (subs : List Nat) (h : B ≠ A) :
    setData true B ⟨[A], subs⟩ true =
      (⟨[B], subs⟩, subs.map (fun f => (f, [B]))) := by
  have hidx : getOwnIndex B (⟨[A], subs⟩ : SBSelection α) = none := by
    simp [getOwnIndex, List.indexOf?, List.findIdx?_cons, Ne.symm h]
  simp [setData, hidx]

/-- Witness for C7 at concrete items and one subscriber. -/
theorem c7_exclusive_select_replaces_witness :
    setData true 1 (⟨[0], [7]⟩ : SBSelection Nat) true =
      (⟨[1], [7]⟩, [7].map (fun f => (f, [1]))) :=
  c7_exclusive_select_replaces 0 1 [7] (by decide)

/-! ## C2: `ComputedState` construction invokes `compute` once per upstream -/

/-- Counterexample to C2 as stated.  Constructing a `ComputedState` over two
upstream cells invokes the recompute function twice — once per upstream cell
(the constructor's loop does `addBinding` then `triggerBinding` for each) —
not exactly once. -/
theorem c2_compute_once_counterexample :
    (computedConstruct ⟨99, 7⟩
      ([⟨10, []⟩, ⟨20, []⟩] : List (StateA Nat))).2.length = 2 ∧
    (computedConstruct ⟨99, 7⟩
      ([⟨10, []⟩, ⟨20, []⟩] : List (StateA Nat))).2.length ≠ 1 := by
  decide

/-- C2, amended.  At construction a `ComputedState` subscribes to every
upstream cell (after the loop, every upstream carries the constructor's
binding) and immediately invokes the recompute function once *per upstream
cell* — `N` invocations for `N` upstreams, not exactly once — so its value
is correct before any external code observes it whenever the upstream list
is non-empty. -/
theorem c2_computed_construct_once_per_upstream {U : Type} (binding : Binding)
    (ups : List (StateA U)) :
    (computedConstruct binding ups).1 =
      ups.map (fun s => s.addBinding binding) ∧
    (computedConstruct binding ups).2 =
      ups.map (fun s => (binding.actionId, s._value)) ∧
    (computedConstruct binding ups).2.length = ups.length ∧
    ((computedConstruct binding ups).1.all
      (fun s' => mapGet s'.bindings binding.uuid == some binding.actionId)) =
      true := by
  induction ups with
  | nil => exact ⟨rfl, rfl, rfl, rfl⟩
  | cons s rest ih =>
    obtain ⟨ih1, ih2, ih3, ih4⟩ := ih
    refine ⟨?_, ?_, ?_, ?_⟩
    · simp [computedConstruct, ih1]
    · simp [computedConstruct, StateA.triggerBinding, StateA.addBinding, ih2]
    · simp [computedConstruct, StateA.triggerBinding, ih3]
    · simp only [computedConstruct, List.all_cons, ih4, Bool.and_true]
      simp [StateA.addBinding, mapGet_mapSet_self]

/-! ## C6: `SelectionModel` -/

/-- `update` on a model whose stored array was allocated before the current
allocation counter (every reachable model satisfies this) always notifies:
`getItems()` allocates a fresh array, so the setter's reference-equality
short-circuit never fires here. -/
theorem SelectionModel.update_eq {α : Type} (s : SelectionModel α)
    (h : s._value.1 < s.alloc) :
    s.update = (⟨(s.alloc, s._selection), s._bindings, s._selection,
        s.alloc + 1⟩,
      s._bindings.map (fun f => (f, s._selection))) := by
  simp [SelectionModel.update, Nat.ne_of_lt h]

/-- `select` under the allocation invariant: the selection set grows by the
items and the subscribers are notified exactly once, with the new contents. -/
theorem SelectionModel.select_eq {α : Type} [DecidableEq α]
    (s : SelectionModel α) (items : List α) (h : s._value.1 < s.alloc) :
    s.select items = (⟨(s.alloc, items.foldl setAdd s._selection),
        s._bindings, items.foldl setAdd s._selection, s.alloc + 1⟩,
      s._bindings.map (fun f => (f, items.foldl setAdd s._selection))) := by
  exact SelectionModel.update_eq _ h

/-- `deselect` under the allocation invariant. -/
theorem SelectionModel.deselect_eq {α : Type} [DecidableEq α]
    (s : SelectionModel α) (items : List α) (h : s._value.1 < s.alloc) :
    s.deselect items = (⟨(s.alloc, items.foldl setDelete s._selection),
        s._bindings, items.foldl setDelete s._selection, s.alloc + 1⟩,
      s._bindings.map (fun f => (f, items.foldl setDelete s._selection))) := by
  exact SelectionModel.update_eq _ h

/-- `clear` under the allocation invariant. -/
theorem SelectionModel.clear_eq {α : Type} (s : SelectionModel α)
    (h : s._value.1 < s.alloc) :
    s.clear = (⟨(s.alloc, []), s._bindings, [], s.alloc + 1⟩,
      s._bindings.map (fun f => (f, ([] : List α)))) := by
  exact SelectionModel.update_eq _ h

/-- C6.  Starting from a `SelectionModel` with empty selection (and the
allocation invariant that every reachable model satisfies): `select(a, b)`
makes `getItems()` exactly `[a, b]` and notifies each subscriber exactly once
with the new contents; a further `deselect(a)` leaves exactly `[b]`, again
with one notification; `clear()` empties it with one notification;
`checkIsSelected` answers membership (true for `a` and `b` after the select,
false for `a` after the deselect) without mutating or notifying (it is a pure
query by construction); and on any model each single call to `select`,
`deselect` or `clear` performs exactly one notification per subscriber,
regardless of how many items the call receives. -/
theorem c6_selection_model {α : Type} [DecidableEq α]
    (s0 s : SelectionModel α) (a b : α) (items : List α)
    (hwf0 : s0._value.1 < s0.alloc) (hsel : s0._selection = []) (hab : a ≠ b)
    (hwf : s._value.1 < s.alloc) :
    ((s0.select [a, b]).1).getItems = [a, b] ∧
    (s0.select [a, b]).2 = s0._bindings.map (fun f => (f, [a, b])) ∧
    ((s0.select [a, b]).1.deselect [a]).1.getItems = [b] ∧
    ((s0.select [a, b]).1.deselect [a]).2 =
      s0._bindings.map (fun f => (f, [b])) ∧
    ((s0.select [a, b]).1.deselect [a]).1.clear.1.getItems = [] ∧
    ((s0.select [a, b]).1.deselect [a]).1.clear.2 =
      s0._bindings.map (fun f => (f, ([] : List α))) ∧
    (s0.select [a, b]).1.checkIsSelected a = true ∧
    (s0.select [a, b]).1.checkIsSelected b = true ∧
    ((s0.select [a, b]).1.deselect [a]).1.checkIsSelected a = false ∧
    (s.select items).2.length = s._bindings.length ∧
    (s.deselect items).2.length = s._bindings.length ∧
    s.clear.2.length = s._bindings.length := by
  have hX : List.foldl setAdd s0._selection [a, b] = [a, b] := by
    rw [hsel]
    simp [setAdd, Ne.symm hab]
  have hs1 : s0.select [a, b] =
      (⟨(s0.alloc, [a, b]), s0._bindings, [a, b], s0.alloc + 1⟩,
        s0._bindings.map (fun f => (f, [a, b]))) := by
    rw [SelectionModel.select_eq _ _ hwf0, hX]
  have hY : List.foldl setDelete [a, b] [a] = [b] := by
    simp [setDelete, Ne.symm hab]
  have hs2 : (s0.select [a, b]).1.deselect [a] =
      (⟨(s0.alloc + 1, [b]), s0._bindings, [b], s0.alloc + 2⟩,
        s0._bindings.map (fun f => (f, [b]))) := by
    rw [hs1]
    rw [SelectionModel.deselect_eq _ _ (Nat.lt_succ_self _)]
    rw [hY]
  have hs3 : ((s0.select [a, b]).1.deselect [a]).1.clear =
      (⟨(s0.alloc + 2, []), s0._bindings, [], s0.alloc + 3⟩,
        s0._bindings.map (fun f => (f, ([] : List α)))) := by
    rw [hs2]
    rw [SelectionModel.clear_eq _ (Nat.lt_succ_self _)]
  refine ⟨?_, ?_, ?_, ?_, ?_, ?_, ?_, ?_, ?_, ?_, ?_, ?_⟩
  · rw [hs1]; rfl
  · rw [hs1]
  · rw [hs2]; rfl
  · rw [hs2]
  · rw [hs3]; rfl
  · rw [hs3]
  · rw [hs1]
    simp [SelectionModel.checkIsSelected]
  · rw [hs1]
    simp [SelectionModel.checkIsSelected]
  · rw [hs2]
    simp [SelectionModel.checkIsSelected, hab]
  · rw [SelectionModel.select_eq _ _ hwf]
    simp
  · rw [SelectionModel.deselect_eq _ _ hwf]
    simp
  · rw [SelectionModel.clear_eq _ hwf]
    simp

/-- Witness for C6: the hypotheses discharged on a model freshly constructed
and subscribed to by callback `7`, with items `1` and `2`. -/
theorem c6_selection_model_witness :
    (((SelectionModel.new Nat).subscribe 7).select [1, 2]).1.getItems =
      [1, 2] ∧
    (((SelectionModel.new Nat).subscribe 7).select [1, 2]).2 =
      ((SelectionModel.new Nat).subscribe 7)._bindings.map
        (fun f => (f, [1, 2])) ∧
    ((((SelectionModel.new Nat).subscribe 7).select [1, 2]).1.deselect
        [1]).1.getItems = [2] ∧
    ((((SelectionModel.new Nat).subscribe 7).select [1, 2]).1.deselect
        [1]).2 =
      ((SelectionModel.new Nat).subscribe 7)._bindings.map
        (fun f => (f, [2])) ∧
    ((((SelectionModel.new Nat).subscribe 7).select [1, 2]).1.deselect
        [1]).1.clear.1.getItems = [] ∧
    ((((SelectionModel.new Nat).subscribe 7).select [1, 2]).1.deselect
        [1]).1.clear.2 =
      ((SelectionModel.new Nat).subscribe 7)._bindings.map
        (fun f => (f, ([] : List Nat))) ∧
    (((SelectionModel.new Nat).subscribe 7).select [1, 2]).1.checkIsSelected
        1 = true ∧
    (((SelectionModel.new Nat).subscribe 7).select [1, 2]).1.checkIsSelected
        2 = true ∧
    ((((SelectionModel.new Nat).subscribe 7).select [1, 2]).1.deselect
        [1]).1.checkIsSelected 1 = false ∧
    (((SelectionModel.new Nat).subscribe 7).select [5, 6]).2.length =
      ((SelectionModel.new Nat).subscribe 7)._bindings.length ∧
    (((SelectionModel.new Nat).subscribe 7).deselect [5, 6]).2.length =
      ((SelectionModel.new Nat).subscribe 7)._bindings.length ∧
    ((SelectionModel.new Nat).subscribe 7).clear.2.length =
      ((SelectionModel.new Nat).subscribe 7)._bindings.length :=
  c6_selection_model ((SelectionModel.new Nat).subscribe 7)
    ((SelectionModel.new Nat).subscribe 7) 1 2 [5, 6] (by decide) rfl
    (by decide) (by decide)

/-! ## C1: `ProxyState` invokes the backward conversion once per write -/

theorem origTriggerAll_fields {T O : Type} (cf : O → T) (l : List OrigAction) :
    ∀ sys : ProxySys T O,
      (ProxySys.origTriggerAll cf sys l).1.originalValue = sys.originalValue ∧
      (ProxySys.origTriggerAll cf sys l).1.origBindings = sys.origBindings ∧
      (ProxySys.origTriggerAll cf sys l).1.proxySubs = sys.proxySubs := by
  induction l with
  | nil => intro sys; exact ⟨rfl, rfl, rfl⟩
  | cons a rest ih =>
    intro sys
    cases a with
    | passive i =>
      simpa [ProxySys.origTriggerAll, ProxySys.runOrigAction] using ih sys
    | proxyRefresh =>
      simpa [ProxySys.origTriggerAll, ProxySys.runOrigAction] using
        ih { sys with proxyValue := cf sys.originalValue }

theorem countP_map_false {α β : Type} (p : β → Bool) (f : α → β) (l : List α)
    (h : ∀ a, p (f a) = false) : (l.map f).countP p = 0 := by
  induction l with
  | nil => rfl
  | cons a rest ih => simp [List.countP_cons, h, ih]

/-- The original cell's fan-out emits only subscriber-invocation and
forward-conversion events, so any predicate that ignores those — such as
counting backward conversions or upstream assignments — counts zero. -/
theorem countP_origTriggerAll {T O : Type} (cf : O → T)
    (p : PEvent T O → Bool) (hsub : ∀ i y, p (.origSub i y) = false)
    (hfwd : ∀ y x, p (.forward y x) = false)
    (hpsub : ∀ i x, p (.proxySub i x) = false) (l : List OrigAction) :
    ∀ sys : ProxySys T O,
      (ProxySys.origTriggerAll cf sys l).2.countP p = 0 := by
  induction l with
  | nil => intro sys; rfl
  | cons a rest ih =>
    intro sys
    cases a with
    | passive i =>
      simp [ProxySys.origTriggerAll, ProxySys.runOrigAction,
        List.countP_append, List.countP_cons, hsub, ih]
    | proxyRefresh =>
      simp [ProxySys.origTriggerAll, ProxySys.runOrigAction,
        List.countP_append, List.countP_cons, hfwd,
        countP_map_false _ _ _ (fun i => hpsub i _),
        ih { sys with proxyValue := cf sys.originalValue }]

theorem countP_proxyWrite_backward {T O : Type} (cf : O → T) (ct : T → O)
    (sys : ProxySys T O) (x : T) :
    (ProxySys.proxyWrite cf ct sys x).2.countP PEvent.isBackward = 1 := by
  simp [ProxySys.proxyWrite, ProxySys.origSetValue, List.countP_cons,
    PEvent.isBackward,
    countP_origTriggerAll cf PEvent.isBackward (fun _ _ => rfl)
      (fun _ _ => rfl) (fun _ _ => rfl) _ _]

theorem countP_proxyWrite_assign {T O : Type} (cf : O → T) (ct : T → O)
    (sys : ProxySys T O) (x : T) :
    (ProxySys.proxyWrite cf ct sys x).2.countP PEvent.isAssignUpstream = 1 := by
  simp [ProxySys.proxyWrite, ProxySys.origSetValue, List.countP_cons,
    PEvent.isAssignUpstream, PEvent.isBackward,
    countP_origTriggerAll cf PEvent.isAssignUpstream (fun _ _ => rfl)
      (fun _ _ => rfl) (fun _ _ => rfl) _ _]

theorem countP_proxyWrites_backward {T O : Type} (cf : O → T) (ct : T → O)
    (xs : List T) : ∀ sys : ProxySys T O,
    (ProxySys.proxyWrites cf ct sys xs).2.countP PEvent.isBackward =
      xs.length := by
  induction xs with
  | nil => intro sys; rfl
  | cons x rest ih =>
    intro sys
    simp [ProxySys.proxyWrites, List.countP_append,
      countP_proxyWrite_backward, ih]
    omega

theorem countP_proxyWrites_assign {T O : Type} (cf : O → T) (ct : T → O)
    (xs : List T) : ∀ sys : ProxySys T O,
    (ProxySys.proxyWrites cf ct sys xs).2.countP PEvent.isAssignUpstream =
      xs.length := by
  induction xs with
  | nil => intro sys; rfl
  | cons x rest ih =>
    intro sys
    simp [ProxySys.proxyWrites, List.countP_append,
      countP_proxyWrite_assign, ih]
    omega

/-- A fan-out over passive subscribers only: one `origSub` event each, and
the system is unchanged. -/
theorem origTriggerAll_passives {T O : Type} (cf : O → T) (l : List Nat) :
    ∀ sys : ProxySys T O,
    ProxySys.origTriggerAll cf sys (l.map .passive) =
      (sys, l.map (fun i => PEvent.origSub i sys.originalValue)) := by
  induction l with
  | nil => intro sys; rfl
  | cons i l' ih =>
    intro sys
    simp [ProxySys.origTriggerAll, ProxySys.runOrigAction, ih sys]

/-- A run of passive subscribers at the head of the original's binding map
contributes one `origSub` event each and leaves the system unchanged. -/
theorem origTriggerAll_passive_prefix {T O : Type} (cf : O → T)
    (pre : List Nat) : ∀ (sys : ProxySys T O) (rest : List OrigAction),
    ProxySys.origTriggerAll cf sys (pre.map .passive ++ rest) =
      ((ProxySys.origTriggerAll cf sys rest).1,
        pre.map (fun i => PEvent.origSub i sys.originalValue) ++
          (ProxySys.origTriggerAll cf sys rest).2) := by
  induction pre with
  | nil => intro sys rest; rfl
  | cons i pre' ih =>
    intro sys rest
    simp [ProxySys.origTriggerAll, ProxySys.runOrigAction, ih sys rest]

/-- C1.  For every proxy/upstream pair and every sequence of explicit proxy
writes, the backward conversion is invoked exactly once per write and the
upstream cell's value is assigned exactly once per write (first two
conjuncts, over an arbitrary system).  A single write on a system whose
upstream binding map holds passive subscribers around the proxy's refresh
binding produces exactly the trace: one backward conversion, one upstream
assignment, then the upstream fan-out in which the proxy's refresh binding
performs one forward conversion and notifies each of the proxy's own
subscribers once with the forward-converted value — never re-invoking the
backward conversion — and the final state stores the forward-converted value
in the proxy. -/
theorem c1_proxy_backward_once_per_write {T O : Type} (cf : O → T)
    (ct : T → O) (sys : ProxySys T O) (xs : List T) (v0 : O) (t0 : T)
    (pre post psubs : List Nat) (x : T) :
    (ProxySys.proxyWrites cf ct sys xs).2.countP PEvent.isBackward =
      xs.length ∧
    (ProxySys.proxyWrites cf ct sys xs).2.countP PEvent.isAssignUpstream =
      xs.length ∧
    (ProxySys.proxyWrite cf ct
        ⟨v0, pre.map .passive ++ .proxyRefresh :: post.map .passive, t0,
          psubs⟩ x).2 =
      .backward x (ct x) :: .assignUpstream (ct x) ::
        (pre.map (fun i => PEvent.origSub i (ct x)) ++
          .forward (ct x) (cf (ct x)) ::
            (psubs.map (fun i => PEvent.proxySub i (cf (ct x))) ++
              post.map (fun i => PEvent.origSub i (ct x)))) ∧
    (ProxySys.proxyWrite cf ct
        ⟨v0, pre.map .passive ++ .proxyRefresh :: post.map .passive, t0,
          psubs⟩ x).1 =
      ⟨ct x, pre.map .passive ++ .proxyRefresh :: post.map .passive,
        cf (ct x), psubs⟩ := by
  refine ⟨countP_proxyWrites_backward cf ct xs sys,
    countP_proxyWrites_assign cf ct xs sys, ?_, ?_⟩
  · simp [ProxySys.proxyWrite, ProxySys.origSetValue,
      origTriggerAll_passive_prefix, origTriggerAll_passives,
      ProxySys.origTriggerAll, ProxySys.runOrigAction]
  · simp [ProxySys.proxyWrite, ProxySys.origSetValue,
      origTriggerAll_passive_prefix, origTriggerAll_passives,
      ProxySys.origTriggerAll, ProxySys.runOrigAction]

end FrugalUI
